import Mathlib

/-!
A verification development for a two-stage crawl-and-download pipeline
(`basemangacrawler.py`): the Page/Chapter/Work data model, the cache
round-trip, chapter discovery and merging, dispatch, and the
cooperative-cancellation behaviour of the worker loops.  Python machine
behaviour (exceptions, `os.path` helpers, the filesystem) is embedded
shallowly: exceptions become `Except`, the filesystem a list of existing
paths, and `os.path` helpers are re-implemented from CPython's posixpath
semantics.
-/

namespace Manga

/-- The Python exceptions the crawler can raise. -/
inductive PyError where
  | valueError (msg : String)
  | fileNotFoundError (msg : String)
  | typeError
deriving Repr, DecidableEq

/-- Helper for `rfindChar`: `i` is the index of the head of `cs` in the
original string, `acc` the best index found so far (`-1` when none). -/
def lastIdxAux (cs : List Char) (c : Char) (i : Nat) (acc : Int) : Int :=
  match cs with
  | [] => acc
  | x :: xs => lastIdxAux xs c (i + 1) (if x = c then (i : Int) else acc)

/-- Python `str.rfind` for a single character: the index of the last
occurrence of `c` in `p`, or `-1` when `c` does not occur. -/
def rfindChar (p : String) (c : Char) : Int :=
  lastIdxAux p.toList c 0 (-1)

/-- CPython `posixpath.splitext`: split off the extension at the last dot
of the last path component, unless that component consists only of dots
(`sep`/`dot` in the CPython source are the last slash and last dot). -/
def splitext (p : String) : String × String :=
  if rfindChar p '/' < rfindChar p '.' then
    if ((p.toList.drop (rfindChar p '/' + 1).toNat).take
          (rfindChar p '.' - rfindChar p '/' - 1).toNat).any (fun ch => ch ≠ '.') then
      (String.mk (p.toList.take (rfindChar p '.').toNat),
       String.mk (p.toList.drop (rfindChar p '.').toNat))
    else (p, "")
  else (p, "")

/-- Python `f-string` formatting `{n:04}`: decimal, zero-padded to width 4
(the sign, when present, counts toward the width). -/
def intFormat04 (n : Int) : String :=
  if n < 0 then
    let s := toString n.natAbs
    if s.length + 1 < 4 then "-" ++ String.mk (List.replicate (3 - s.length) '0') ++ s
    else "-" ++ s
  else
    let s := toString n
    if s.length < 4 then String.mk (List.replicate (4 - s.length) '0') ++ s
    else s

/-- `str.startswith`, computed structurally on the character lists. -/
def strStartsWith (s pre : String) : Bool :=
  pre.toList.isPrefixOf s.toList

/-- `str.endswith`, computed structurally on the character lists. -/
def strEndsWith (s post : String) : Bool :=
  post.toList.reverse.isPrefixOf s.toList.reverse

/-- `str.split('/')`, computed structurally (CPython semantics: the empty
string splits to `[""]`, adjacent slashes yield empty components). -/
def splitOnSlashAux : List Char → List Char → List String
  | [], acc => [String.mk acc.reverse]
  | c :: cs, acc =>
    if c = '/' then String.mk acc.reverse :: splitOnSlashAux cs []
    else splitOnSlashAux cs (c :: acc)

/-- `p.split('/')`. -/
def splitOnSlash (p : String) : List String :=
  splitOnSlashAux p.toList []

/-- `'/'.join(comps)`. -/
def joinSlash : List String → String
  | [] => ""
  | [x] => x
  | x :: xs => x ++ "/" ++ joinSlash xs

/-- CPython `posixpath.join` for two components. -/
def osPathJoin (a b : String) : String :=
  if strStartsWith b "/" then b
  else if a = "" ∨ strEndsWith a "/" then a ++ b
  else a ++ "/" ++ b

/-- The component loop of CPython `posixpath.normpath`. -/
def normpathComps (comps : List String) (initialSlash : Bool) : List String :=
  comps.foldl
    (fun acc comp =>
      if comp = "" ∨ comp = "." then acc
      else if comp ≠ ".." ∨ (¬ initialSlash ∧ acc = []) ∨ acc.getLast? = some ".." then
        acc ++ [comp]
      else if acc ≠ [] then acc.dropLast
      else acc)
    []

/-- CPython `posixpath.normpath`. -/
def normpath (p : String) : String :=
  if p = "" then "."
  else
    let initialSlashes : Nat :=
      if strStartsWith p "//" && !(strStartsWith p "///") then 2
      else if strStartsWith p "/" then 1
      else 0
    let joined := joinSlash (normpathComps (splitOnSlash p) (0 < initialSlashes))
    let res := String.mk (List.replicate initialSlashes '/') ++ joined
    if res = "" then "." else res

/-- CPython `posixpath.abspath`, with the process working directory made
an explicit parameter `cwd`. -/
def abspath (cwd p : String) : String :=
  if strStartsWith p "/" then normpath p else normpath (osPathJoin cwd p)

/-- The filesystem, embedded as the list of paths that exist on disk. -/
abbrev FS := List String

/-- `os.path.exists`. -/
def pathExists (fs : FS) (p : String) : Bool := fs.contains p

/-- `Page` (`basemangacrawler.py`): a page of the manga.  `pageUrl` and
`imageUrl` are `Option`s because the Python fields can hold `None`;
`dirPath` is a plain string because the constructor rejects `None`. -/
structure Page where
  idx : Int
  pageUrl : Option String
  dirPath : String
  imageUrl : Option String
deriving Repr, DecidableEq

/-- `Page.__init__`: validates the index, `pageUrl` and `dirPath`, then
stores the fields.  A raised `ValueError` becomes `Except.error`. -/
def Page.make (idx : Int) (pageUrl : Option String) (dirPath : Option String)
    (imageUrl : Option String) : Except PyError Page :=
  if idx < 1 then .error (.valueError "The index must be a positive number.")
  else if pageUrl = none ∨ pageUrl = some "" then
    .error (.valueError "The pageUrl must not be None.")
  else if dirPath = none ∨ dirPath = some "" then
    .error (.valueError "The dirPath must not be None.")
  else .ok ⟨idx, pageUrl, dirPath.getD "", imageUrl⟩

/-- `Page.filename`: `page{idx:04}{ext}` where `ext` comes from
`os.path.splitext(imageUrl)`; `None` while `imageUrl` is `None`. -/
def Page.filename (p : Page) : Option String :=
  match p.imageUrl with
  | none => none
  | some u => some ("page" ++ intFormat04 p.idx ++ (splitext u).2)

/-- `Page.filepath`: `os.path.join(dirPath, filename)`; `None` while the
filename is `None`. -/
def Page.filepath (p : Page) : Option String :=
  match p.filename with
  | none => none
  | some fn => some (osPathJoin p.dirPath fn)

/-- `Page.fileExists`: false when the filepath is `None`, otherwise
`os.path.exists(filepath)`. -/
def Page.fileExists (p : Page) (fs : FS) : Bool :=
  match p.filepath with
  | none => false
  | some fp => pathExists fs fp

/-- `Chapter` (`basemangacrawler.py`).  `dirPath` stays an `Option`
because the constructor never validates it. -/
structure Chapter where
  idx : Int
  url : String
  title : String
  dirPath : Option String
  pages : List Page
deriving Repr, DecidableEq

/-- `Chapter.__init__`: validates the index and URL, defaults the title
to `chapter{idx:04}`, defaults `pages` to the empty list. -/
def Chapter.make (idx : Int) (url : Option String) (dirPath : Option String)
    (title : Option String) (pages : Option (List Page)) : Except PyError Chapter :=
  if idx < 1 then .error (.valueError "The index must be a positive number.")
  else if url = none ∨ url = some "" then .error (.valueError "The URL must not be None.")
  else .ok ⟨idx, url.getD "", title.getD ("chapter" ++ intFormat04 idx), dirPath, pages.getD []⟩

/-- `Chapter.hasPages`: the pages list is non-empty. -/
def Chapter.hasPages (c : Chapter) : Bool :=
  decide (0 < c.pages.length)

/-- `Chapter.isDownloaded`: `hasPages` and every page's file exists. -/
def Chapter.isDownloaded (c : Chapter) (fs : FS) : Bool :=
  c.hasPages && c.pages.all (fun p => p.fileExists fs)

/-! ### Characterisation of `rfindChar` and `splitext` -/

theorem lastIdxAux_spec (c : Char) :
    ∀ (cs : List Char) (i : Nat) (acc : Int),
      (lastIdxAux cs c i acc = acc ∧ c ∉ cs) ∨
      (∃ j : Nat, j < cs.length ∧ lastIdxAux cs c i acc = (i : Int) + j ∧
        cs[j]? = some c ∧ ∀ k : Nat, j < k → cs[k]? ≠ some c)
  | [], i, acc => Or.inl ⟨rfl, List.not_mem_nil c⟩
  | x :: xs, i, acc => by
    have ih := lastIdxAux_spec c xs (i + 1) (if x = c then (i : Int) else acc)
    rw [show lastIdxAux (x :: xs) c i acc
        = lastIdxAux xs c (i + 1) (if x = c then (i : Int) else acc) from rfl]
    rcases ih with ⟨heq, hnot⟩ | ⟨j, hj, heq, hget, hafter⟩
    · by_cases hx : x = c
      · rw [if_pos hx] at heq ⊢
        refine Or.inr ⟨0, by simp, by simpa using heq, by simp [hx], ?_⟩
        intro k hk
        obtain ⟨k', rfl⟩ := Nat.exists_eq_add_of_lt hk
        simp only [Nat.zero_add, List.getElem?_cons_succ]
        intro hmem
        rcases Nat.lt_or_ge k' xs.length with hlt | hge
        · rw [List.getElem?_eq_getElem hlt] at hmem
          exact hnot (Option.some.inj hmem ▸ List.getElem_mem hlt)
        · rw [List.getElem?_eq_none hge] at hmem
          cases hmem
      · rw [if_neg hx] at heq ⊢
        refine Or.inl ⟨heq, ?_⟩
        intro hmem
        rcases List.mem_cons.mp hmem with h | h
        · exact hx h.symm
        · exact hnot h
    · refine Or.inr ⟨j + 1, by simpa using Nat.succ_lt_succ hj, ?_, by simpa using hget, ?_⟩
      · rw [heq]; push_cast; ring
      · intro k hk
        obtain ⟨k', rfl⟩ := Nat.exists_eq_add_of_lt (Nat.lt_of_succ_lt hk)
        simp only [List.getElem?_cons_succ]
        exact hafter (j + k') (by omega)

theorem rfindChar_spec (p : String) (c : Char) :
    (rfindChar p c = -1 ∧ c ∉ p.toList) ∨
    (∃ j : Nat, j < p.toList.length ∧ rfindChar p c = (j : Int) ∧
      p.toList[j]? = some c ∧ ∀ k : Nat, j < k → p.toList[k]? ≠ some c) := by
  rcases lastIdxAux_spec c p.toList 0 (-1) with h | ⟨j, hj, heq, hget, hafter⟩
  · exact Or.inl h
  · exact Or.inr ⟨j, hj, by simpa using heq, hget, hafter⟩

theorem mk_append_mk (a b : List Char) : String.mk a ++ String.mk b = String.mk (a ++ b) :=
  rfl

theorem mk_toList (s : String) : String.mk s.toList = s := rfl

/-- The two components of `splitext` concatenate back to the input, and the
extension, when non-empty, starts with a dot and contains no further dot. -/
theorem splitext_spec (u : String) :
    (splitext u).1 ++ (splitext u).2 = u ∧
    ((splitext u).2 = "" ∨
      ∃ s : List Char, (splitext u).2 = String.mk ('.' :: s) ∧ '.' ∉ s) := by
  unfold splitext
  split
  case isFalse => exact ⟨by simp [mk_toList u], Or.inl rfl⟩
  case isTrue hlt =>
    split
    case isFalse => exact ⟨by simp [mk_toList u], Or.inl rfl⟩
    case isTrue hbase =>
      constructor
      · rw [mk_append_mk, List.take_append_drop]
        exact mk_toList u
      · rcases rfindChar_spec u '.' with ⟨heq, _⟩ | ⟨j, hj, heq, hget, hafter⟩
        · exfalso
          rw [heq] at hlt
          rcases rfindChar_spec u '/' with ⟨heq2, _⟩ | ⟨j2, _, heq2, _, _⟩
          · rw [heq2] at hlt; omega
          · rw [heq2] at hlt
            have : (0 : Int) ≤ (j2 : Int) := Int.ofNat_nonneg j2
            omega
        · refine Or.inr ⟨u.toList.drop (j + 1), ?_, ?_⟩
          · rw [heq]
            have hchr : u.toList[j] = '.' := by
              have := List.getElem?_eq_getElem hj
              rw [this] at hget
              exact Option.some.inj hget
            rw [Int.toNat_ofNat, List.drop_eq_getElem_cons hj, hchr]
          · intro hmem
            obtain ⟨k, hk, hkeq⟩ := List.getElem_of_mem hmem
            rw [List.getElem_drop] at hkeq
            have hlen : j + 1 + k < u.toList.length := by
              have := List.length_drop (j + 1) u.toList
              omega
            exact hafter (j + 1 + k) (by omega)
              (by rw [List.getElem?_eq_getElem hlen, hkeq])

/-! ### Claim C1: `isDownloaded` versus "every page present" -/

/-- A chapter with an empty page list (as any freshly discovered chapter
before its pages are fetched). -/
def chapterEmpty : Chapter := ⟨1, "http://site/manga/ch1", "chapter0001", some "/m/ch1", []⟩

/-- C1 (counterexample): for a chapter whose page list is empty, every
contained page is present vacuously, yet `Chapter.isDownloaded` returns
`false`, so the claimed equivalence fails on the empty-page chapter. -/
theorem C1_counterexample :
    ¬ (chapterEmpty.isDownloaded [] = true ↔
        ∀ p ∈ chapterEmpty.pages, p.fileExists [] = true) := by
  decide

/-- C1 (amended): `Chapter.isDownloaded` returns `true` iff the chapter has
at least one page and every contained page is present on disk; a chapter
with an empty page list is never reported as downloaded. -/
theorem C1_isDownloaded_iff (c : Chapter) (fs : FS) :
    c.isDownloaded fs = true ↔ (c.pages ≠ [] ∧ ∀ p ∈ c.pages, p.fileExists fs = true) := by
  simp [Chapter.isDownloaded, Chapter.hasPages, List.all_eq_true, List.length_pos]

/-! ### Claim C6: the derived filename -/

/-- C6: when the asset URL is known, `Page.filename` is `"page"`, then the
index zero-padded to four digits, then the extension that `splitext` cuts
off the asset URL exactly once (the extension carries its leading dot and no
other dot, and the two `splitext` components concatenate back to the URL);
while the asset URL is `None` the filename is `None`. -/
theorem C6_filename_spec (p : Page) :
    (p.imageUrl = none → p.filename = none) ∧
    (∀ u : String, p.imageUrl = some u →
      p.filename = some ("page" ++ intFormat04 p.idx ++ (splitext u).2) ∧
      (splitext u).1 ++ (splitext u).2 = u ∧
      ((splitext u).2 = "" ∨
        ∃ s : List Char, (splitext u).2 = String.mk ('.' :: s) ∧ '.' ∉ s)) := by
  constructor
  · intro h; simp [Page.filename, h]
  · intro u h
    exact ⟨by simp [Page.filename, h], splitext_spec u⟩

/-- A page with a resolved asset URL, for evaluating `C6_filename_spec`. -/
def pageWithImage : Page := ⟨3, some "http://site/p3", "/m/ch1", some "http://img.site/x/img.jpg"⟩

/-- Witness for C6: the filename of `pageWithImage` evaluates to
`page0003.jpg`. -/
theorem C6_filename_spec_witness :
    pageWithImage.filename
      = some ("page" ++ intFormat04 3 ++ (splitext "http://img.site/x/img.jpg").2) ∧
    pageWithImage.filename = some "page0003.jpg" :=
  ⟨((C6_filename_spec pageWithImage).2 "http://img.site/x/img.jpg" rfl).1, by decide⟩

/-! ### Claim C9: pages without an asset URL are never "already present" -/

/-- C9: `filename` and `filepath` are `None` exactly when `imageUrl` is
`None`, and then `fileExists` is `false` on every filesystem, so a page
without a resolved asset URL is never skipped as already downloaded. -/
theorem C9_no_image_not_present (p : Page) (fs : FS) :
    (p.filename = none ↔ p.imageUrl = none) ∧
    (p.filepath = none ↔ p.imageUrl = none) ∧
    (p.imageUrl = none → p.fileExists fs = false) := by
  obtain ⟨i, pu, d, iu⟩ := p
  cases iu <;> simp [Page.filename, Page.filepath, Page.fileExists]

/-- A page whose asset URL is not yet resolved. -/
def pageNoImage : Page := ⟨2, some "http://site/p2", "/m/ch1", none⟩

/-- Witness for C9: even on a filesystem full of plausible files, the
presence check for a page without an asset URL is `false`. -/
theorem C9_no_image_not_present_witness :
    pageNoImage.fileExists ["/m/ch1/page0002.jpg", "/m/ch1/page0002"] = false :=
  (C9_no_image_not_present pageNoImage ["/m/ch1/page0002.jpg", "/m/ch1/page0002"]).2.2 rfl

/-! ### Claim C10: constructed pages always carry a `pageUrl` -/

/-- C10: every page accepted by the `Page` constructor has a non-`None`,
non-empty `pageUrl`; hence the page-worker branch guarded by
"`pageUrl is None and imageUrl is None`" can never fire on such a page. -/
theorem C10_page_make_pageUrl (idx : Int) (pu dp iu : Option String) (p : Page)
    (h : Page.make idx pu dp iu = .ok p) :
    p.pageUrl ≠ none ∧ p.pageUrl ≠ some "" ∧ ¬ (p.pageUrl = none ∧ p.imageUrl = none) := by
  revert h
  unfold Page.make
  split
  · intro h; cases h
  · split
    · intro h; cases h
    · split
      · intro h; cases h
      · next hpu _ =>
        intro h
        cases h
        push_neg at hpu
        exact ⟨hpu.1, hpu.2, fun hc => hpu.1 hc.1⟩

/-- Witness for C10: a concretely constructed page, on which the
unreachable-branch condition is indeed false. -/
theorem C10_page_make_pageUrl_witness :
    ¬ ((⟨1, some "http://site/p1", "/m/ch1", none⟩ : Page).pageUrl = none ∧
       (⟨1, some "http://site/p1", "/m/ch1", none⟩ : Page).imageUrl = none) :=
  (C10_page_make_pageUrl 1 (some "http://site/p1") (some "/m/ch1") none _ rfl).2.2

/-! ### Claim C4: the chapter merge step of `download` -/

/-- The merge loop of `download`: each fetched chapter is appended only if
its title does not occur in the current list, which grows as fetched
chapters are appended (the Python loop tests against the live list). -/
def mergeLoop (cur : List Chapter) (fetched : List Chapter) : List Chapter :=
  match fetched with
  | [] => cur
  | f :: rest =>
    if cur.any (fun c => f.title = c.title) then mergeLoop cur rest
    else mergeLoop (cur ++ [f]) rest

/-- The full merge step of `download`: the merge loop followed by
re-sorting on the chapter index (Python `sorted` is a stable merge sort
on the key, hence `List.mergeSort` with `≤` on `idx`). -/
def downloadMerge (existing fetched : List Chapter) : List Chapter :=
  (mergeLoop existing fetched).mergeSort (fun a b => a.idx ≤ b.idx)

theorem mergeLoop_titles_nodup :
    ∀ (fetched cur : List Chapter), ((cur.map Chapter.title).Nodup) →
      ((mergeLoop cur fetched).map Chapter.title).Nodup
  | [], cur, h => h
  | f :: rest, cur, h => by
    rw [mergeLoop]
    split
    · exact mergeLoop_titles_nodup rest cur h
    · next hany =>
      refine mergeLoop_titles_nodup rest (cur ++ [f]) ?_
      rw [List.map_append, List.map_singleton]
      rw [List.nodup_append]
      refine ⟨h, List.nodup_singleton _, ?_⟩
      intro t ht
      simp only [List.mem_singleton]
      intro hteq
      apply hany
      obtain ⟨c, hc, rfl⟩ := List.mem_map.mp ht
      exact List.any_eq_true.mpr ⟨c, hc, by simp [hteq]⟩

theorem downloadMerge_titles_nodup (existing fetched : List Chapter)
    (h : (existing.map Chapter.title).Nodup) :
    ((downloadMerge existing fetched).map Chapter.title).Nodup := by
  have hperm : List.Perm (downloadMerge existing fetched) (mergeLoop existing fetched) :=
    List.mergeSort_perm _ _
  exact ((hperm.map Chapter.title).nodup_iff).mpr (mergeLoop_titles_nodup fetched existing h)

theorem downloadMerge_sorted (existing fetched : List Chapter) :
    (downloadMerge existing fetched).Pairwise (fun a b => a.idx ≤ b.idx) := by
  have h := @List.sorted_mergeSort Chapter
    (fun a b : Chapter => decide (a.idx ≤ b.idx))
    (fun a b c hab hbc => by
      simp only [decide_eq_true_eq] at *
      omega)
    (fun a b => by
      simp only [Bool.or_eq_true, decide_eq_true_eq]
      omega)
    (mergeLoop existing fetched)
  exact h.imp (fun hab => by simpa using hab)

/-- Two cached chapters that share a title (a cache file is ordinary JSON
and is not deduplicated on load). -/
def chapterDupA : Chapter := ⟨1, "http://site/ch1", "Chapter 1", some "/m/c", []⟩

/-- A second chapter with the same title as `chapterDupA`. -/
def chapterDupB : Chapter := ⟨2, "http://site/ch1b", "Chapter 1", some "/m/c", []⟩

/-- C4 (counterexample): when the existing chapter list already contains
two chapters with the same title, the merge step keeps both, so the merged
list does have two chapters with the same title. -/
theorem C4_counterexample :
    ¬ ((downloadMerge [chapterDupA, chapterDupB] []).map Chapter.title).Nodup := by
  have h : downloadMerge [chapterDupA, chapterDupB] [] = [chapterDupA, chapterDupB] := by
    show List.mergeSort [chapterDupA, chapterDupB] (fun a b => a.idx ≤ b.idx) = _
    exact List.mergeSort_of_sorted (by decide)
  rw [h]
  decide

/-- C4 (amended): provided the existing chapter list has pairwise-distinct
titles (a fetched chapter is dropped when its title already occurs, and the
live list is consulted, so fetched-internal duplicates are also dropped),
the merged list has pairwise-distinct titles; and the merged list is always
sorted by chapter index in ascending order. -/
theorem C4_merge_nodup_sorted (existing fetched : List Chapter)
    (h : (existing.map Chapter.title).Nodup) :
    ((downloadMerge existing fetched).map Chapter.title).Nodup ∧
    (downloadMerge existing fetched).Pairwise (fun a b => a.idx ≤ b.idx) :=
  ⟨downloadMerge_titles_nodup existing fetched h, downloadMerge_sorted existing fetched⟩

/-- A freshly fetched chapter whose title duplicates `chapterDupA`. -/
def chapterFetchedDup : Chapter := ⟨3, "http://site/ch1c", "Chapter 1", some "/m/c", []⟩

/-- A freshly fetched chapter with a smaller index than the cached one. -/
def chapterFetchedNew : Chapter := ⟨1, "http://site/ch0", "Chapter 0", some "/m/c", []⟩

/-- Witness for C4: merging two fetched chapters (one a title-duplicate)
into a duplicate-free existing list yields distinct titles and ascending
indices. -/
theorem C4_merge_nodup_sorted_witness :
    ([chapterDupB].map Chapter.title).Nodup ∧
    ((downloadMerge [chapterDupB] [chapterFetchedDup, chapterFetchedNew]).map
      Chapter.title).Nodup ∧
    (downloadMerge [chapterDupB] [chapterFetchedDup, chapterFetchedNew]).Pairwise
      (fun a b => a.idx ≤ b.idx) := by
  refine ⟨by decide, (C4_merge_nodup_sorted _ _ (by decide)).1,
    (C4_merge_nodup_sorted [chapterDupB] [chapterFetchedDup, chapterFetchedNew] (by decide)).2⟩

/-! ### Claim C5: the dispatch phase of `download` -/

/-- Outcome of the dispatch phase of `download` (everything after the merge
step).  `workersStarted` records that both worker pools were launched;
every other constructor is an early return with no workers started and the
progress totals untouched. -/
inductive RunOutcome where
  | killed
  | noChapters
  | allDownloaded (total : Nat)
  | workersStarted (queue : List Chapter) (numChapterThreads numPageThreads : Int)
deriving Repr, DecidableEq

/-- The chapter queue built by `download`: the chapters that are not
already downloaded, in list order. -/
def chapterQueue (fs : FS) (chapters : List Chapter) : List Chapter :=
  chapters.filter (fun c => !(c.isDownloaded fs))

/-- The dispatch phase of `download`: the kill-event check, the
no-chapters check, the queue population, the all-downloaded early return,
and otherwise the start of both worker pools. -/
def dispatch (fs : FS) (kill : Bool) (chapters : List Chapter)
    (numChapterThreads numPageThreads : Int) : RunOutcome :=
  if kill then .killed
  else if chapters.length = 0 then .noChapters
  else if (chapterQueue fs chapters).length = 0 then .allDownloaded chapters.length
  else .workersStarted (chapterQueue fs chapters) numChapterThreads numPageThreads

/-- C5: the chapter queue holds exactly the not-yet-complete chapters, in
list order (a sublist, so an ascending-index list stays ascending); and on
a non-empty chapter list in which every chapter is complete, dispatch ends
the run with no workers started, while otherwise both pools start on
exactly that queue. -/
theorem C5_dispatch_spec (fs : FS) (chapters : List Chapter) (nc np : Int) :
    (∀ c, c ∈ chapterQueue fs chapters ↔ c ∈ chapters ∧ c.isDownloaded fs = false) ∧
    (chapterQueue fs chapters).Sublist chapters ∧
    (chapters.Pairwise (fun a b => a.idx ≤ b.idx) →
      (chapterQueue fs chapters).Pairwise (fun a b => a.idx ≤ b.idx)) ∧
    (chapters ≠ [] → (∀ c ∈ chapters, c.isDownloaded fs = true) →
      dispatch fs false chapters nc np = .allDownloaded chapters.length) ∧
    (chapters ≠ [] → chapterQueue fs chapters ≠ [] →
      dispatch fs false chapters nc np
        = .workersStarted (chapterQueue fs chapters) nc np) := by
  refine ⟨?_, List.filter_sublist _, fun h => h.sublist (List.filter_sublist _), ?_, ?_⟩
  · intro c
    simp [chapterQueue, List.mem_filter]
  · intro hne hall
    have hq : chapterQueue fs chapters = [] := by
      simp only [chapterQueue, List.filter_eq_nil_iff]
      intro c hc
      simp [hall c hc]
    simp [dispatch, hq, List.length_eq_zero, hne]
  · intro hne hq
    have h1 : ¬ chapters.length = 0 := by simpa [List.length_eq_zero] using hne
    have h2 : ¬ (chapterQueue fs chapters).length = 0 := by
      simpa [List.length_eq_zero] using hq
    simp [dispatch, h1, h2]

/-- A chapter whose single page is present on the test filesystem. -/
def chapterDone : Chapter :=
  ⟨1, "http://site/ch1", "Chapter 1", some "/m/ch1",
    [⟨1, some "http://site/p1", "/m/ch1", some "http://img.site/a.png"⟩]⟩

/-- A chapter whose single page is absent from the test filesystem. -/
def chapterTodo : Chapter :=
  ⟨2, "http://site/ch2", "Chapter 2", some "/m/ch2",
    [⟨1, some "http://site/p2", "/m/ch2", some "http://img.site/b.png"⟩]⟩

/-- The filesystem on which `chapterDone` is complete. -/
def fsDone : FS := ["/m/ch1/page0001.png"]

/-- Witness for C5: on `fsDone`, a list with only complete chapters
dispatches to the all-downloaded early return, and a mixed list starts
the workers on exactly the incomplete chapter. -/
theorem C5_dispatch_spec_witness :
    dispatch fsDone false [chapterDone] 3 5 = .allDownloaded 1 ∧
    dispatch fsDone false [chapterDone, chapterTodo] 3 5
      = .workersStarted [chapterTodo] 3 5 := by
  constructor
  · exact (C5_dispatch_spec fsDone [chapterDone] 3 5).2.2.2.1 (by decide) (by decide)
  · have h := (C5_dispatch_spec fsDone [chapterDone, chapterTodo] 3 5).2.2.2.2
      (by decide) (by decide)
    rw [h]
    decide

/-! ### Claim C8: constructor validation of `BaseMangaCrawler` -/

/-- The persisted fields of `BaseMangaCrawler` (the crawler/Work model);
queues, threads, the kill event and the progress bars are process-transient
and are not part of the model.  Fields that Python can hold as `None` are
`Option`s. -/
structure Crawler where
  url : Option String
  title : Option String
  baseDirPath : Option String
  dirPath : Option String
  cachePath : Option String
  numChapterThreads : Int
  numPageThreads : Int
  chapters : List Chapter
deriving Repr, DecidableEq

/-- `BaseMangaCrawler.__init__`: the validation sequence (URL,
baseDirPath, cache-file existence, both worker counts, in that order) and
then the stored configuration. -/
def crawlerInit (fs : FS) (url baseDirPath dirPath cachePath title : Option String)
    (chapters : Option (List Chapter)) (numChapterThreads numPageThreads : Int) :
    Except PyError Crawler :=
  if url = none ∨ url = some "" then .error (.valueError "The URL must not be None.")
  else if baseDirPath = none ∨ baseDirPath = some "" then
    .error (.valueError "The baseDirPath must not be None.")
  else if cachePath.any (fun p => !(pathExists fs p)) then
    .error (.fileNotFoundError ("Cache file not found at " ++ cachePath.getD "" ++ "."))
  else if numChapterThreads < 1 then
    .error (.valueError "Invalid number of chapter processing threads.")
  else if numPageThreads < 1 then
    .error (.valueError "Invalid number of page downloading threads.")
  else .ok ⟨url, title, baseDirPath, dirPath, cachePath,
    numChapterThreads, numPageThreads, chapters.getD []⟩

/-- C8: construction fails exactly when the configuration is invalid
(`None`/empty url or baseDirPath, specified-but-missing cache file, or a
worker count below 1); an invalid url/baseDirPath or worker count raises
`ValueError`, a missing cache file raises `FileNotFoundError`, and a valid
configuration is stored as given. -/
theorem C8_init_spec (fs : FS) (url base dirP cacheP title : Option String)
    (chs : Option (List Chapter)) (nc np : Int) :
    ((∃ e, crawlerInit fs url base dirP cacheP title chs nc np = .error e) ↔
      (url = none ∨ url = some "" ∨ base = none ∨ base = some "" ∨
       (∃ p, cacheP = some p ∧ pathExists fs p = false) ∨ nc < 1 ∨ np < 1)) ∧
    (∀ m, crawlerInit fs url base dirP cacheP title chs nc np = .ok m →
      m = ⟨url, title, base, dirP, cacheP, nc, np, chs.getD []⟩) ∧
    ((url = none ∨ url = some "" ∨ base = none ∨ base = some "") →
      ∃ msg, crawlerInit fs url base dirP cacheP title chs nc np
        = .error (.valueError msg)) ∧
    (∀ p, ¬(url = none ∨ url = some "") → ¬(base = none ∨ base = some "") →
      cacheP = some p → pathExists fs p = false →
      ∃ msg, crawlerInit fs url base dirP cacheP title chs nc np
        = .error (.fileNotFoundError msg)) ∧
    (¬(url = none ∨ url = some "") → ¬(base = none ∨ base = some "") →
      (∀ p, cacheP = some p → pathExists fs p = true) → (nc < 1 ∨ np < 1) →
      ∃ msg, crawlerInit fs url base dirP cacheP title chs nc np
        = .error (.valueError msg)) := by
  unfold crawlerInit
  refine ⟨?_, ?_, ?_, ?_, ?_⟩
  · constructor
    · intro ⟨e, he⟩
      by_contra hval
      push_neg at hval
      obtain ⟨h1, h2, h3, h4, h5, h6, h7⟩ := hval
      have hu : ¬ (url = none ∨ url = some "") := by tauto
      have hb : ¬ (base = none ∨ base = some "") := by tauto
      have hc : ¬ cacheP.any (fun p => !(pathExists fs p)) = true := by
        cases hcp : cacheP with
        | none => simp [Option.any]
        | some p =>
          simp only [Option.any, Bool.not_eq_true]
          have := h5 p hcp
          simp only [Bool.not_eq_true] at this ⊢
          simp [this]
      rw [if_neg hu, if_neg hb, if_neg hc, if_neg (by omega : ¬ nc < 1),
        if_neg (by omega : ¬ np < 1)] at he
      cases he
    · intro hval
      by_cases hu : url = none ∨ url = some ""
      · exact ⟨_, by rw [if_pos hu]⟩
      by_cases hb : base = none ∨ base = some ""
      · exact ⟨_, by rw [if_neg hu, if_pos hb]⟩
      by_cases hcb : cacheP.any (fun p => !(pathExists fs p)) = true
      · exact ⟨_, by rw [if_neg hu, if_neg hb, if_pos hcb]⟩
      by_cases hnc : nc < 1
      · exact ⟨_, by rw [if_neg hu, if_neg hb, if_neg hcb, if_pos hnc]⟩
      by_cases hnp : np < 1
      · exact ⟨_, by rw [if_neg hu, if_neg hb, if_neg hcb, if_neg hnc, if_pos hnp]⟩
      exfalso
      rcases hval with h | h | h | h | ⟨p, hp, hpe⟩ | h | h
      · exact hu (Or.inl h)
      · exact hu (Or.inr h)
      · exact hb (Or.inl h)
      · exact hb (Or.inr h)
      · exact hcb (by simp [hp, Option.any, hpe])
      · exact hnc h
      · exact hnp h
  · intro m hm
    split at hm
    · cases hm
    split at hm
    · cases hm
    split at hm
    · cases hm
    split at hm
    · cases hm
    split at hm
    · cases hm
    exact (Except.ok.inj hm).symm
  · intro h
    rcases Classical.em (url = none ∨ url = some "") with hu | hu
    · exact ⟨_, by rw [if_pos hu]⟩
    · have hb : base = none ∨ base = some "" := by tauto
      exact ⟨_, by rw [if_neg hu, if_pos hb]⟩
  · intro p hu hb hp hpe
    exact ⟨_, by rw [if_neg hu, if_neg hb, if_pos (by simp [hp, Option.any, hpe])]⟩
  · intro hu hb hcache hcount
    have hcb : ¬ cacheP.any (fun p => !(pathExists fs p)) = true := by
      cases hcp : cacheP with
      | none => simp [Option.any]
      | some p =>
        simp only [Option.any, Bool.not_eq_true']
        simp [hcache p hcp]
    rcases Classical.em (nc < 1) with hnc | hnc
    · exact ⟨_, by rw [if_neg hu, if_neg hb, if_neg hcb, if_pos hnc]⟩
    · exact ⟨_, by rw [if_neg hu, if_neg hb, if_neg hcb, if_neg hnc,
        if_pos (by omega : np < 1)]⟩

/-- The crawler stored by a concrete valid construction. -/
def crawlerExample : Crawler :=
  ⟨some "http://site/manga", none, some "/out", none, none, 3, 5, []⟩

/-- Witness for C8: a concrete valid construction succeeds and, by the
theorem, stores exactly the given configuration. -/
theorem C8_init_spec_witness :
    crawlerInit [] (some "http://site/manga") (some "/out") none none none none 3 5
      = .ok crawlerExample ∧
    crawlerExample = ⟨some "http://site/manga", none, some "/out", none, none, 3, 5,
      (none : Option (List Chapter)).getD []⟩ :=
  ⟨rfl,
    (C8_init_spec [] (some "http://site/manga") (some "/out") none none none none 3 5).2.1
      crawlerExample rfl⟩

/-! ### Claim C3: the cache round trip -/

/-- The JSON object written by `Page.toDict`. -/
structure PageDict where
  idx : Int
  pageUrl : Option String
  dirPath : String
  imageUrl : Option String
deriving Repr, DecidableEq

/-- The JSON object written by `Chapter.toDict`. -/
structure ChapterDict where
  idx : Int
  url : String
  title : String
  dirPath : String
  pages : List PageDict
deriving Repr, DecidableEq

/-- The JSON object written by `BaseMangaCrawler.toDict` (the cache file
content; `json.dump`/`json.load` of such a tree is the identity). -/
structure CacheDict where
  url : Option String
  title : Option String
  baseDirPath : String
  dirPath : String
  cachePath : String
  numChapterThreads : Int
  numPageThreads : Int
  chapters : List ChapterDict
deriving Repr, DecidableEq

/-- `Page.toDict`: the directory path is stored absolute. -/
def Page.toDict (cwd : String) (p : Page) : PageDict :=
  ⟨p.idx, p.pageUrl, abspath cwd p.dirPath, p.imageUrl⟩

/-- `Chapter.toDict`: `os.path.abspath(None)` raises `TypeError`, so a
chapter whose `dirPath` is `None` makes serialisation fail. -/
def Chapter.toDict (cwd : String) (c : Chapter) : Except PyError ChapterDict :=
  match c.dirPath with
  | none => .error .typeError
  | some d => .ok ⟨c.idx, c.url, c.title, abspath cwd d, c.pages.map (Page.toDict cwd)⟩

/-- `BaseMangaCrawler.toDict`: all three model paths are stored absolute
(`abspath` of `None` raises `TypeError`). -/
def Crawler.toDict (cwd : String) (m : Crawler) : Except PyError CacheDict :=
  match m.baseDirPath, m.dirPath, m.cachePath with
  | some b, some d, some cp => do
    let chapters ← m.chapters.mapM (Chapter.toDict cwd)
    return ⟨m.url, m.title, abspath cwd b, abspath cwd d, abspath cwd cp,
      m.numChapterThreads, m.numPageThreads, chapters⟩
  | _, _, _ => .error .typeError

/-- The `getPage` closure of `loadCache`: rebuilds the page through the
`Page` constructor. -/
def getPage (d : PageDict) : Except PyError Page :=
  Page.make d.idx d.pageUrl (some d.dirPath) d.imageUrl

/-- The `getChapter` closure of `loadCache`: rebuilds the pages, then the
chapter through the `Chapter` constructor. -/
def getChapter (d : ChapterDict) : Except PyError Chapter := do
  let pages ← d.pages.mapM getPage
  Chapter.make d.idx (some d.url) (some d.dirPath) (some d.title) (some pages)

/-- `loadCache` applied to a cache dict: rebuilds the chapter tree and
replaces every persisted field of the model. -/
def loadCacheDict (d : CacheDict) : Except PyError Crawler := do
  let chapters ← d.chapters.mapM getChapter
  return ⟨d.url, d.title, some d.baseDirPath, some d.dirPath, some d.cachePath,
    d.numChapterThreads, d.numPageThreads, chapters⟩

/-- A page the `Page` constructor accepts, whose directory path is a fixed
point of `abspath` (an absolute path in normal form). -/
def Page.Wf (cwd : String) (p : Page) : Prop :=
  1 ≤ p.idx ∧ p.pageUrl ≠ none ∧ p.pageUrl ≠ some "" ∧ p.dirPath ≠ "" ∧
  abspath cwd p.dirPath = p.dirPath

/-- A chapter the `Chapter` constructor accepts, with a set abspath-normal
directory path and well-formed pages. -/
def Chapter.Wf (cwd : String) (c : Chapter) : Prop :=
  1 ≤ c.idx ∧ c.url ≠ "" ∧
  (∃ d, c.dirPath = some d ∧ d ≠ "" ∧ abspath cwd d = d) ∧
  ∀ p ∈ c.pages, p.Wf cwd

/-- A crawler model whose three paths are set and abspath-normal and whose
chapter tree is well-formed. -/
def Crawler.Wf (cwd : String) (m : Crawler) : Prop :=
  (∃ b, m.baseDirPath = some b ∧ abspath cwd b = b) ∧
  (∃ d, m.dirPath = some d ∧ abspath cwd d = d) ∧
  (∃ cp, m.cachePath = some cp ∧ abspath cwd cp = cp) ∧
  ∀ c ∈ m.chapters, c.Wf cwd

instance {ε α : Type} [DecidableEq ε] [DecidableEq α] : DecidableEq (Except ε α) :=
  fun a b =>
    match a, b with
    | .ok x, .ok y =>
      if h : x = y then isTrue (by rw [h]) else isFalse (by intro hc; cases hc; exact h rfl)
    | .error x, .error y =>
      if h : x = y then isTrue (by rw [h]) else isFalse (by intro hc; cases hc; exact h rfl)
    | .ok _, .error _ => isFalse (by intro hc; cases hc)
    | .error _, .ok _ => isFalse (by intro hc; cases hc)

theorem getPage_roundtrip (cwd : String) (p : Page) (h : p.Wf cwd) :
    getPage (p.toDict cwd) = .ok p := by
  obtain ⟨h1, h2, h3, h4, h5⟩ := h
  unfold getPage Page.toDict Page.make
  simp only
  rw [h5, if_neg (by omega), if_neg (by simp [h2, h3]), if_neg (by simp [h4])]
  rfl

theorem mapM_getPage_roundtrip (cwd : String) :
    ∀ (ps : List Page), (∀ p ∈ ps, p.Wf cwd) →
      (ps.map (Page.toDict cwd)).mapM getPage = Except.ok ps
  | [], _ => rfl
  | p :: rest, h => by
    rw [List.map_cons, List.mapM_cons, getPage_roundtrip cwd p (h p (by simp)),
      mapM_getPage_roundtrip cwd rest (fun q hq => h q (by simp [hq]))]
    rfl

theorem getChapter_roundtrip (cwd : String) (c : Chapter) (h : c.Wf cwd) :
    ∃ dc, Chapter.toDict cwd c = .ok dc ∧ getChapter dc = .ok c := by
  obtain ⟨h1, h2, ⟨d, hd, hdne, habs⟩, hps⟩ := h
  refine ⟨⟨c.idx, c.url, c.title, abspath cwd d, c.pages.map (Page.toDict cwd)⟩, ?_, ?_⟩
  · unfold Chapter.toDict
    rw [hd]
  · show (c.pages.map (Page.toDict cwd)).mapM getPage >>= (fun pages =>
      Chapter.make c.idx (some c.url) (some (abspath cwd d)) (some c.title) (some pages))
      = Except.ok c
    rw [mapM_getPage_roundtrip cwd c.pages hps]
    show Chapter.make c.idx (some c.url) (some (abspath cwd d)) (some c.title) (some c.pages)
      = Except.ok c
    unfold Chapter.make
    rw [habs, if_neg (by omega), if_neg (by simp [h2])]
    show Except.ok ⟨c.idx, c.url, c.title, some d, c.pages⟩ = Except.ok c
    rw [← hd]

theorem mapM_getChapter_roundtrip (cwd : String) :
    ∀ (cs : List Chapter), (∀ c ∈ cs, c.Wf cwd) →
      ∃ ds, cs.mapM (Chapter.toDict cwd) = Except.ok ds ∧
        ds.mapM getChapter = Except.ok cs
  | [], _ => ⟨[], rfl, rfl⟩
  | c :: rest, h => by
    obtain ⟨dc, hdc1, hdc2⟩ := getChapter_roundtrip cwd c (h c (by simp))
    obtain ⟨ds, hds1, hds2⟩ :=
      mapM_getChapter_roundtrip cwd rest (fun q hq => h q (by simp [hq]))
    refine ⟨dc :: ds, ?_, ?_⟩
    · rw [List.mapM_cons, hdc1, hds1]; rfl
    · rw [List.mapM_cons, hdc2, hds2]; rfl

/-- C3 (amended): for every crawler model whose persisted paths are set
and already absolute in normal form (fixed points of `abspath`) and whose
chapter/page tree satisfies the constructor invariants, loading the cache
dict written by `toDict` restores the model exactly, on every persisted
field (url, baseDirPath, dirPath, cachePath, title, worker counts and the
full chapter/page tree); process-transient state is not persisted at all. -/
theorem C3_roundtrip (cwd : String) (m : Crawler) (h : m.Wf cwd) :
    ∃ dict, m.toDict cwd = .ok dict ∧ loadCacheDict dict = .ok m := by
  obtain ⟨u, t, bP, dP, cP, nc, np, chs⟩ := m
  obtain ⟨⟨b, hb, hab⟩, ⟨d, hd, had⟩, ⟨cp, hcp, hacp⟩, hch⟩ := h
  simp only at hb hd hcp hch
  subst hb; subst hd; subst hcp
  obtain ⟨ds, hds1, hds2⟩ := mapM_getChapter_roundtrip cwd chs hch
  refine ⟨⟨u, t, b, d, cp, nc, np, ds⟩, ?_, ?_⟩
  · unfold Crawler.toDict
    simp only
    rw [hds1, hab, had, hacp]
    rfl
  · unfold loadCacheDict
    simp only
    rw [hds2]
    rfl

/-- A crawler model with a set cache path but a relative `dirPath`. -/
def crawlerRel : Crawler :=
  ⟨some "http://site/manga", some "T", some "/out", some "rel",
    some "/out/cache.json", 3, 5, []⟩

/-- C3 (counterexample): saving and re-loading `crawlerRel` (with the
process working directory `/cwd`) does not restore the model: the relative
`dirPath` `rel` comes back as the absolute `/cwd/rel`. -/
theorem C3_counterexample :
    (crawlerRel.toDict "/cwd").bind loadCacheDict ≠ .ok crawlerRel ∧
    (crawlerRel.toDict "/cwd").bind loadCacheDict
      = .ok ⟨some "http://site/manga", some "T", some "/out", some "/cwd/rel",
          some "/out/cache.json", 3, 5, []⟩ := by
  constructor
  · decide
  · decide

/-- A concrete well-formed model, for evaluating `C3_roundtrip`. -/
def crawlerAbs : Crawler :=
  ⟨some "http://site/manga", some "T", some "/out", some "/out/T",
    some "/out/T/cache.json", 3, 5,
    [⟨1, "http://site/ch1", "Chapter 1", some "/out/T/Chapter 1",
      [⟨1, some "http://site/p1", "/out/T/Chapter 1", some "http://img.site/a.png"⟩]⟩]⟩

/-- Witness for C3: the round trip on the concrete model `crawlerAbs`. -/
theorem C3_roundtrip_witness :
    ∃ dict, crawlerAbs.toDict "/cwd" = .ok dict ∧ loadCacheDict dict = .ok crawlerAbs :=
  C3_roundtrip "/cwd" crawlerAbs
    (by
      refine ⟨⟨"/out", rfl, by decide⟩, ⟨"/out/T", rfl, by decide⟩,
        ⟨"/out/T/cache.json", rfl, by decide⟩, ?_⟩
      intro c hc
      simp only [crawlerAbs, List.mem_singleton] at hc
      subst hc
      refine ⟨by decide, by decide, ⟨"/out/T/Chapter 1", rfl, by decide, by decide⟩, ?_⟩
      intro p hp
      simp only [List.mem_singleton] at hp
      subst hp
      exact ⟨by decide, by decide, by decide, by decide, by decide⟩)

/-! ### Claim C2: errors during the root pagination walk -/

/-- `BaseMangaCrawler._fetchChapters`: walk the root pagination chain.
`parse` summarises `fetchHtmlSoup` plus `parseChapters` for one URL
(`none` = an exception was raised), `nextUrl` summarises
`getNextMangaPagination` (`none` = an exception was raised, otherwise the
next URL or `none`-for-no-next wrapped in `some`), `paginated` is
`isMangaPaginated()`, and `fuel` bounds the modelled walk (the Python loop
runs until no next URL).  On an exception the loop `break`s and the
chapters accumulated so far are returned — the function never returns
`None`, despite its docstring. -/
def fetchChaptersGo (parse : String → Option (List Chapter))
    (nextUrl : String → Option (Option String)) (paginated : Bool) (kill : Bool) :
    Nat → Option String → List Chapter → List Chapter
  | _, none, result => result
  | 0, some _, result => result
  | fuel + 1, some url, result =>
    if kill then result
    else
      match parse url with
      | none => result
      | some chapters =>
        if !paginated then result ++ chapters
        else
          match nextUrl url with
          | none => result ++ chapters
          | some nu => fetchChaptersGo parse nextUrl paginated kill fuel nu (result ++ chapters)

/-- `_fetchChapters` from the manga URL with an empty accumulator. -/
def fetchChapters (parse : String → Option (List Chapter))
    (nextUrl : String → Option (Option String)) (paginated : Bool) (kill : Bool)
    (fuel : Nat) (url : String) : List Chapter :=
  fetchChaptersGo parse nextUrl paginated kill fuel (some url) []

/-- A two-page root listing: page 1 parses to one chapter and links to
page 2; fetching page 2 raises. -/
def parseFailPage2 : String → Option (List Chapter) := fun u =>
  if u = "http://site/manga" then some [chapterDupA] else none

/-- The next-pagination oracle for the failing walk. -/
def nextFailPage2 : String → Option (Option String) := fun u =>
  if u = "http://site/manga" then some (some "http://site/manga?page=2") else none

/-- C2: evaluating the code at the failing input.  The walk over a
two-page listing whose second fetch raises returns the chapter discovered
on page 1 rather than aborting with nothing; `download` then merges that
chapter into the (empty) chapter list and dispatches it to the workers, so
the run does make progress past the cached state. -/
theorem C2_partial_walk_merged_dispatched :
    fetchChapters parseFailPage2 nextFailPage2 true false 10 "http://site/manga"
      = [chapterDupA] ∧
    downloadMerge []
      (fetchChapters parseFailPage2 nextFailPage2 true false 10 "http://site/manga")
      = [chapterDupA] ∧
    dispatch [] false
      (downloadMerge []
        (fetchChapters parseFailPage2 nextFailPage2 true false 10 "http://site/manga"))
      3 5
      = .workersStarted [chapterDupA] 3 5 := by
  have h1 : fetchChapters parseFailPage2 nextFailPage2 true false 10 "http://site/manga"
      = [chapterDupA] := by decide
  have h2 : downloadMerge [] [chapterDupA] = [chapterDupA] := by
    show List.mergeSort [chapterDupA] (fun a b => a.idx ≤ b.idx) = _
    exact List.mergeSort_of_sorted (by decide)
  refine ⟨h1, ?_, ?_⟩
  · rw [h1, h2]
  · rw [h1, h2]
    decide

/-! ### Claim C7: cancellation checks in the worker loops -/

/-- The observable events of a worker loop: every cancellation-signal
check (with the value `is_set()` returned), the source-level steps between
the checks, and the network calls. -/
inductive Ev where
  | checkKill (observed : Bool)
  | popPage (idx : Int)
  | testFileExists (present : Bool)
  | testUrlsNone
  | netFetchPage
  | netFetchChapterPage
  | parsePages (ok : Bool)
  | netDownload
  | progressUpdate
deriving Repr, DecidableEq

/-- One page worker's `processPage` loop, as the list of events it
generates.  `queue` is the sequence of `(page, chapter)` items this worker
dequeues, `kills` the successive values the kill event's `is_set()` calls
return, and `resolveImg` summarises `fetchHtmlSoup(page.pageUrl)` plus
`parseImageUrl` (`none` = an exception, caught at the loop boundary).  The
chapter threads are taken as finished, so an empty queue ends the loop
after the two checks the source performs there. -/
def processPageTrace (fs : FS) (resolveImg : String → Option String) :
    List (Page × Chapter) → List Bool → List Ev
  | [], kills =>
    if kills.headD false then [Ev.checkKill true]
    else Ev.checkKill false ::
      (if kills.tail.headD false then [Ev.checkKill true] else [Ev.checkKill false])
  | (p, _) :: rest, kills =>
    if kills.headD false then [Ev.checkKill true]
    else
      Ev.checkKill false :: Ev.popPage p.idx ::
      (if p.fileExists fs then
        Ev.testFileExists true :: Ev.progressUpdate ::
          processPageTrace fs resolveImg rest kills.tail
      else
        Ev.testFileExists false ::
        (if p.pageUrl = none ∧ p.imageUrl = none then
          Ev.testUrlsNone :: Ev.progressUpdate ::
            processPageTrace fs resolveImg rest kills.tail
        else
          (match p.imageUrl with
          | some _ =>
            (if kills.tail.headD false then [Ev.checkKill true]
            else Ev.checkKill false :: Ev.netDownload :: Ev.progressUpdate ::
              processPageTrace fs resolveImg rest kills.tail.tail)
          | none =>
            Ev.netFetchPage ::
            (match resolveImg (p.pageUrl.getD "") with
            | none =>
              Ev.progressUpdate :: processPageTrace fs resolveImg rest kills.tail
            | some _ =>
              (if kills.tail.headD false then [Ev.checkKill true]
              else Ev.checkKill false :: Ev.netDownload :: Ev.progressUpdate ::
                processPageTrace fs resolveImg rest kills.tail.tail)))))

/-- The `_fetchPages` pagination walk of a chapter worker (the only place
a chapter worker performs network calls), as an event list plus the
kill-value sequence left over for later checks.  `parsePg` summarises the
fetch-and-parse of one chapter page (`none` = an exception, which ends the
walk at the network call), `nextUrl` the next-pagination step, and `fuel`
bounds the modelled walk. -/
def fetchPagesTrace (parsePg : String → Option Unit)
    (nextUrl : String → Option (Option String)) (chapterPaginated : Bool) :
    Nat → Option String → List Bool → List Ev × List Bool
  | _, none, kills => ([], kills)
  | 0, some _, kills => ([], kills)
  | fuel + 1, some url, kills =>
    if kills.headD false then ([Ev.checkKill true], kills.tail)
    else
      match parsePg url with
      | none => ([Ev.checkKill false, Ev.netFetchChapterPage], kills.tail)
      | some _ =>
        if !chapterPaginated then
          ([Ev.checkKill false, Ev.netFetchChapterPage, Ev.parsePages true], kills.tail)
        else
          match nextUrl url with
          | none => ([Ev.checkKill false, Ev.netFetchChapterPage, Ev.parsePages true],
              kills.tail)
          | some nu =>
            let r := fetchPagesTrace parsePg nextUrl chapterPaginated fuel nu kills.tail
            (Ev.checkKill false :: Ev.netFetchChapterPage :: Ev.parsePages true :: r.1, r.2)

/-- Network calls. -/
def isNet : Ev → Bool
  | .netFetchPage => true
  | .netFetchChapterPage => true
  | .netDownload => true
  | _ => false

/-- Cancellation-signal checks. -/
def isCheck : Ev → Bool
  | .checkKill _ => true
  | _ => false

/-- The asset-download network call. -/
def isDownloadEv : Ev → Bool
  | .netDownload => true
  | _ => false

/-- Dequeuing a page (the start of an iteration's work). -/
def isPopEv : Ev → Bool
  | .popPage _ => true
  | _ => false

/-- `precededByCheck target tr`: every `target` event in `tr` is
immediately preceded by a cancellation check (a `target` event at the head
has nothing before it, so it fails). -/
def precededByCheckAux (target : Ev → Bool) : Ev → List Ev → Bool
  | _, [] => true
  | prev, e :: rest => (!(target e) || isCheck prev) && precededByCheckAux target e rest

/-- Top-level form of `precededByCheckAux`. -/
def precededByCheck (target : Ev → Bool) : List Ev → Bool
  | [] => true
  | e :: rest => !(target e) && precededByCheckAux target e rest

/-- The trace ends immediately after any check that observed the set
signal: a worker that observes the signal exits with no further events. -/
def endsAtObservedKill : List Ev → Bool
  | [] => true
  | Ev.checkKill true :: rest => rest.isEmpty
  | _ :: rest => endsAtObservedKill rest

theorem precededByCheckAux_eq_top (target : Ev → Bool) (prev : Ev) (l : List Ev)
    (h : l = [] ∨ target (l.headD Ev.progressUpdate) = false) :
    precededByCheckAux target prev l = precededByCheck target l := by
  cases l with
  | nil => rfl
  | cons e rest =>
    rcases h with h | h
    · cases h
    · simp only [List.headD_cons] at h
      simp [precededByCheckAux, precededByCheck, h]

theorem isCheck_not_target (e : Ev) (h : isCheck e = true) :
    isNet e = false ∧ isDownloadEv e = false ∧ isPopEv e = false := by
  cases e <;> simp_all [isCheck, isNet, isDownloadEv, isPopEv]

theorem processPageTrace_props (fs : FS) (resolveImg : String → Option String) :
    ∀ (queue : List (Page × Chapter)) (kills : List Bool),
      endsAtObservedKill (processPageTrace fs resolveImg queue kills) = true ∧
      precededByCheck isDownloadEv (processPageTrace fs resolveImg queue kills) = true ∧
      precededByCheck isPopEv (processPageTrace fs resolveImg queue kills) = true ∧
      isCheck ((processPageTrace fs resolveImg queue kills).headD Ev.progressUpdate) = true
  | [], kills => by
    simp only [processPageTrace]
    split
    · exact ⟨rfl, rfl, rfl, rfl⟩
    · split <;> exact ⟨rfl, rfl, rfl, rfl⟩
  | (p, c) :: rest, kills => by
    have ih := fun ks => processPageTrace_props fs resolveImg rest ks
    simp only [processPageTrace]
    split
    · exact ⟨rfl, rfl, rfl, rfl⟩
    split
    · -- file already present: skip branch
      have h := ih kills.tail
      have hhead := (isCheck_not_target _ h.2.2.2)
      refine ⟨?_, ?_, ?_, rfl⟩
      · simpa [endsAtObservedKill] using h.1
      · simp only [precededByCheck, precededByCheckAux, isDownloadEv, isCheck, Bool.and_self,
          Bool.not_false, Bool.true_and, Bool.or_true, Bool.true_or, Bool.not_true,
          Bool.false_or]
        rw [precededByCheckAux_eq_top _ _ _ (Or.inr hhead.2.1)]
        exact h.2.1
      · simp only [precededByCheck, precededByCheckAux, isPopEv, isCheck, Bool.and_self,
          Bool.not_false, Bool.true_and, Bool.or_true, Bool.true_or, Bool.not_true,
          Bool.false_or]
        rw [precededByCheckAux_eq_top _ _ _ (Or.inr hhead.2.2)]
        exact h.2.2.1
    split
    · -- both URLs missing: unprocessable branch
      have h := ih kills.tail
      have hhead := (isCheck_not_target _ h.2.2.2)
      refine ⟨?_, ?_, ?_, rfl⟩
      · simpa [endsAtObservedKill] using h.1
      · simp only [precededByCheck, precededByCheckAux, isDownloadEv, isCheck, Bool.and_self,
          Bool.not_false, Bool.true_and, Bool.or_true, Bool.true_or, Bool.not_true,
          Bool.false_or]
        rw [precededByCheckAux_eq_top _ _ _ (Or.inr hhead.2.1)]
        exact h.2.1
      · simp only [precededByCheck, precededByCheckAux, isPopEv, isCheck, Bool.and_self,
          Bool.not_false, Bool.true_and, Bool.or_true, Bool.true_or, Bool.not_true,
          Bool.false_or]
        rw [precededByCheckAux_eq_top _ _ _ (Or.inr hhead.2.2)]
        exact h.2.2.1
    split
    · -- asset URL already known: check, then download
      split
      · exact ⟨by simp [endsAtObservedKill], rfl, rfl, rfl⟩
      · have h := ih kills.tail.tail
        have hhead := (isCheck_not_target _ h.2.2.2)
        refine ⟨?_, ?_, ?_, rfl⟩
        · simpa [endsAtObservedKill] using h.1
        · simp only [precededByCheck, precededByCheckAux, isDownloadEv, isCheck, Bool.and_self,
            Bool.not_false, Bool.true_and, Bool.or_true, Bool.true_or, Bool.not_true,
            Bool.false_or]
          rw [precededByCheckAux_eq_top _ _ _ (Or.inr hhead.2.1)]
          exact h.2.1
        · simp only [precededByCheck, precededByCheckAux, isPopEv, isCheck, Bool.and_self,
            Bool.not_false, Bool.true_and, Bool.or_true, Bool.true_or, Bool.not_true,
            Bool.false_or]
          rw [precededByCheckAux_eq_top _ _ _ (Or.inr hhead.2.2)]
          exact h.2.2.1
    · -- asset URL unknown: document fetch, then resolve
      split
      · -- fetch or parse raised
        have h := ih kills.tail
        have hhead := (isCheck_not_target _ h.2.2.2)
        refine ⟨?_, ?_, ?_, rfl⟩
        · simpa [endsAtObservedKill] using h.1
        · simp only [precededByCheck, precededByCheckAux, isDownloadEv, isCheck, Bool.and_self,
            Bool.not_false, Bool.true_and, Bool.or_true, Bool.true_or, Bool.not_true,
            Bool.false_or]
          rw [precededByCheckAux_eq_top _ _ _ (Or.inr hhead.2.1)]
          exact h.2.1
        · simp only [precededByCheck, precededByCheckAux, isPopEv, isCheck, Bool.and_self,
            Bool.not_false, Bool.true_and, Bool.or_true, Bool.true_or, Bool.not_true,
            Bool.false_or]
          rw [precededByCheckAux_eq_top _ _ _ (Or.inr hhead.2.2)]
          exact h.2.2.1
      · -- asset URL resolved: check, then download
        split
        · exact ⟨by simp [endsAtObservedKill], rfl, rfl, rfl⟩
        · have h := ih kills.tail.tail
          have hhead := (isCheck_not_target _ h.2.2.2)
          refine ⟨?_, ?_, ?_, rfl⟩
          · simpa [endsAtObservedKill] using h.1
          · simp only [precededByCheck, precededByCheckAux, isDownloadEv, isCheck,
              Bool.and_self, Bool.not_false, Bool.true_and, Bool.or_true, Bool.true_or,
              Bool.not_true, Bool.false_or]
            rw [precededByCheckAux_eq_top _ _ _ (Or.inr hhead.2.1)]
            exact h.2.1
          · simp only [precededByCheck, precededByCheckAux, isPopEv, isCheck, Bool.and_self,
              Bool.not_false, Bool.true_and, Bool.or_true, Bool.true_or, Bool.not_true,
              Bool.false_or]
            rw [precededByCheckAux_eq_top _ _ _ (Or.inr hhead.2.2)]
            exact h.2.2.1

theorem fetchPagesTrace_props (parsePg : String → Option Unit)
    (nextUrl : String → Option (Option String)) (chapterPaginated : Bool) :
    ∀ (fuel : Nat) (url : Option String) (kills : List Bool),
      endsAtObservedKill
        (fetchPagesTrace parsePg nextUrl chapterPaginated fuel url kills).1 = true ∧
      precededByCheck isNet
        (fetchPagesTrace parsePg nextUrl chapterPaginated fuel url kills).1 = true ∧
      ((fetchPagesTrace parsePg nextUrl chapterPaginated fuel url kills).1 = [] ∨
        isCheck ((fetchPagesTrace parsePg nextUrl chapterPaginated fuel url
          kills).1.headD Ev.progressUpdate) = true)
  | 0, none, kills => ⟨rfl, rfl, Or.inl rfl⟩
  | fuel + 1, none, kills => ⟨rfl, rfl, Or.inl rfl⟩
  | 0, some _, kills => ⟨rfl, rfl, Or.inl rfl⟩
  | fuel + 1, some url, kills => by
    have ih := fun u ks => fetchPagesTrace_props parsePg nextUrl chapterPaginated fuel u ks
    simp only [fetchPagesTrace]
    split
    · exact ⟨rfl, rfl, Or.inr rfl⟩
    split
    · exact ⟨rfl, rfl, Or.inr rfl⟩
    split
    · exact ⟨rfl, rfl, Or.inr rfl⟩
    split
    · exact ⟨rfl, rfl, Or.inr rfl⟩
    · next nu heq =>
      have h := ih nu kills.tail
      refine ⟨?_, ?_, Or.inr rfl⟩
      · simpa [endsAtObservedKill] using h.1
      · simp only [precededByCheck, precededByCheckAux, isNet, isCheck, Bool.and_self,
          Bool.not_false, Bool.true_and, Bool.or_true, Bool.true_or, Bool.not_true,
          Bool.false_or]
        have hhead : (fetchPagesTrace parsePg nextUrl chapterPaginated fuel nu
            kills.tail).1 = [] ∨
            isNet ((fetchPagesTrace parsePg nextUrl chapterPaginated fuel nu
              kills.tail).1.headD Ev.progressUpdate) = false := by
          rcases h.2.2 with h3 | h3
          · exact Or.inl h3
          · exact Or.inr (isCheck_not_target _ h3).1
        rw [precededByCheckAux_eq_top _ _ _ hhead]
        exact h.2.1

/-- C7 (amended): in the page worker, the cancellation signal is checked
at the top of each loop iteration (every dequeue is immediately preceded
by a check) and immediately before the asset download, and a worker that
observes the set signal exits with no further events (in particular no
network call); in the chapter worker's pagination walk — the only place a
chapter worker performs network calls — every network call is immediately
preceded by the check at the top of that walk iteration, and an observed
set signal ends the walk at once.  The per-page document fetch, however,
is guarded only by the top-of-iteration check (see the counterexample). -/
theorem C7_cancellation_checks (fs : FS) (resolveImg : String → Option String)
    (parsePg : String → Option Unit) (nextUrl : String → Option (Option String))
    (chapterPaginated : Bool) (queue : List (Page × Chapter)) (kills kills2 : List Bool)
    (fuel : Nat) (url : Option String) :
    endsAtObservedKill (processPageTrace fs resolveImg queue kills) = true ∧
    precededByCheck isDownloadEv (processPageTrace fs resolveImg queue kills) = true ∧
    precededByCheck isPopEv (processPageTrace fs resolveImg queue kills) = true ∧
    isCheck ((processPageTrace fs resolveImg queue kills).headD Ev.progressUpdate) = true ∧
    endsAtObservedKill
      (fetchPagesTrace parsePg nextUrl chapterPaginated fuel url kills2).1 = true ∧
    precededByCheck isNet
      (fetchPagesTrace parsePg nextUrl chapterPaginated fuel url kills2).1 = true := by
  obtain ⟨h1, h2, h3, h4⟩ := processPageTrace_props fs resolveImg queue kills
  obtain ⟨h5, h6, _⟩ := fetchPagesTrace_props parsePg nextUrl chapterPaginated fuel url kills2
  exact ⟨h1, h2, h3, h4, h5, h6⟩

/-- A queued page whose asset URL is not yet resolved and whose file is
absent: the worker must fetch its document. -/
def pageNeedsFetch : Page := ⟨4, some "http://site/p4", "/m/ch1", none⟩

/-- The resolve oracle used by the counterexample. -/
def resolveImgOracle : String → Option String := fun _ => some "http://img.site/d.png"

/-- C7 (counterexample): with the signal set right after the
top-of-iteration check (`kills = [false, true]`), the page worker's
document fetch is not immediately preceded by any signal check — the event
before it is the file-existence test — so the claimed "checked immediately
before any network call, including the per-page document fetch" is false;
the trace does contain that network call. -/
theorem C7_counterexample :
    precededByCheck isNet
      (processPageTrace [] resolveImgOracle [(pageNeedsFetch, chapterTodo)] [false, true])
      = false ∧
    Ev.netFetchPage ∈
      processPageTrace [] resolveImgOracle [(pageNeedsFetch, chapterTodo)] [false, true] ∧
    processPageTrace [] resolveImgOracle [(pageNeedsFetch, chapterTodo)] [false, true]
      = [Ev.checkKill false, Ev.popPage 4, Ev.testFileExists false, Ev.netFetchPage,
         Ev.checkKill true] := by
  refine ⟨by decide, by decide, by decide⟩

end Manga
